import Mathlib

/-!
# Verification of the people-api person resource handler

Shallow embedding of `src/server/src/routes/people-mongo.js`: the route
handlers of the Express router are modelled as pure functions from the
request data and the database state to a response together with the next
database state.  External collaborators that are not part of the
repository (the `Person` model, the id validators in `utils/validators.js`,
the mongodb `ObjectId` coercion) are modelled from the specification and
marked as such in their doc comments.
-/

set_option autoImplicit false

namespace PeopleApi

/-- A JSON scalar as it can occur in a request body field: either a string
or a number (numbers are modelled as rationals). -/
inductive JValue where
  | str (s : String)
  | num (q : ℚ)
  deriving DecidableEq, Repr

/-- Whether a body value is a string (`isString()` validator of
express-validator, line 30 of the source). -/
def JValue.isStr : JValue → Bool
  | .str _ => true
  | .num _ => false

/-- Decimal value of a digit string. -/
def decDigitsVal (cs : List Char) : Nat :=
  cs.foldl (fun n c => 10 * n + (c.toNat - '0'.toNat)) 0

/-- Model of JavaScript number conversion for route/body scalar values, as
used by express-validator's `isFloat` and by `Number(age)` in the source.
Numbers convert to themselves; for strings, nonnegative integer literals
(the only numeric strings this development needs) convert to their value
and anything else to `none` (JavaScript's `NaN`). -/
def jsNumber : JValue → Option ℚ
  | .num q => some q
  | .str s =>
    let cs := s.data
    if !cs.isEmpty && cs.all Char.isDigit then
      some ((decDigitsVal cs : ℚ))
    else none

/-- `isFloat({min, max})` of express-validator (line 31 of the source):
the value must convert to a number lying in `[lo, hi]`. -/
def isFloatInRange (lo hi : ℚ) (v : JValue) : Bool :=
  match jsNumber v with
  | some q => decide (lo ≤ q) && decide (q ≤ hi)
  | none => false

/-- A stored person document.  Fields other than `_id` are optional JSON
values: `PATCH` can set them to arbitrary scalars and documents may lack
them.  `petIds` is the ordered sequence of pet object ids (`[]` when the
field is absent) and `carId` the optional car object id. -/
structure PersonDoc where
  _id : Nat
  name : Option JValue
  lastname : Option JValue
  age : Option JValue
  petIds : List Nat
  carId : Option Nat
  updatedAt : Option ℚ
  deriving DecidableEq, Repr

/-- A pet document: an opaque foreign entity carrying its id and an opaque
payload. -/
structure PetDoc where
  _id : Nat
  payload : String
  deriving DecidableEq, Repr

/-- A car document: an opaque foreign entity carrying its id and an opaque
payload. -/
structure CarDoc where
  _id : Nat
  payload : String
  deriving DecidableEq, Repr

/-- The database state seen by the router: the `people` collection and its
peer `pets` and `cars` collections, each a list of documents in storage
order. -/
structure DB where
  people : List PersonDoc
  pets : List PetDoc
  cars : List CarDoc
  deriving DecidableEq, Repr

/-- A structured validation error, `{field, message}` as in the spec's
error body shape. -/
structure FieldError where
  field : String
  message : String
  deriving DecidableEq, Repr

/-- The HTTP outcome of a handler: a 200 response with a typed body, a 400
response carrying the structured error list, or the `sendError` /
error-translator path for thrown errors (HTTP 500). -/
inductive Resp (α : Type) where
  | ok (body : α)
  | badRequest (errors : List FieldError)
  | error
  deriving DecidableEq, Repr

/-- `true` when the character is a hexadecimal digit. -/
def isHexDigitChar (c : Char) : Bool :=
  c.isDigit || ('a' ≤ c && c ≤ 'f') || ('A' ≤ c && c ≤ 'F')

/-- Numeric value of a hexadecimal digit. -/
def hexDigitVal (c : Char) : Nat :=
  if c.isDigit then c.toNat - '0'.toNat
  else if 'a' ≤ c && c ≤ 'f' then c.toNat - 'a'.toNat + 10
  else c.toNat - 'A'.toNat + 10

/-- Modelled from the spec: the mongodb `ObjectId` coercion (an external
collaborator).  The spec prescribes "an explicit parse-or-fail step
returning a typed identifier or a validation failure".  An object id
string is 24 hexadecimal characters; `ObjectId(id)` in the source throws
on anything else, which this model renders as `none`. -/
def parseOid (s : String) : Option Nat :=
  let cs := s.data
  if cs.length = 24 && cs.all isHexDigitChar then
    some (cs.foldl (fun n c => 16 * n + hexDigitVal c) 0)
  else none

/-- Modelled from the spec: `validatePersonId` from `utils/validators.js`
(not in the repository).  Per the spec the id "must be a syntactically
valid identifier and (implementation-defined) reference an existing
Person". -/
def validatePersonId (s : String) (st : DB) : Bool :=
  match parseOid s with
  | some oid => st.people.any (fun d => d._id = oid)
  | none => false

/-- Modelled from the spec: `validatePetId` from `utils/validators.js`
(not in the repository).  Per the spec the id must be a syntactically
valid identifier referencing an existing document in the `pets`
collection. -/
def validatePetId (s : String) (st : DB) : Bool :=
  match parseOid s with
  | some pid => st.pets.any (fun p => p._id = pid)
  | none => false

/-- Modelled from the spec: `validateCarId` from `utils/validators.js`
(not in the repository).  Per the spec the id must be a syntactically
valid identifier referencing an existing document in the `cars`
collection. -/
def validateCarId (s : String) (st : DB) : Bool :=
  match parseOid s with
  | some cid => st.cars.any (fun c => c._id = cid)
  | none => false

/-- `updateOne(filter, update)`: apply `f` to the first document whose
`_id` equals `oid`, leave everything else in place.  Matches mongodb's
`updateOne`, which modifies at most one document. -/
def updateOne (l : List PersonDoc) (oid : Nat) (f : PersonDoc → PersonDoc) :
    List PersonDoc :=
  match l with
  | [] => []
  | d :: rest =>
    if d._id = oid then f d :: rest else d :: updateOne rest oid f

/-- `deleteOne({_id})`: remove the first document whose `_id` equals
`oid`.  Matches mongodb's `deleteOne`, which removes at most one
document. -/
def deleteOne (l : List PersonDoc) (oid : Nat) : List PersonDoc :=
  match l with
  | [] => []
  | d :: rest =>
    if d._id = oid then rest else d :: deleteOne rest oid

/-! ## Request bodies -/

/-- The body of a `POST /` request: the three fields the validators of
lines 29-31 of the source look at (`name`, `lastname`, `age`), each
possibly absent. -/
structure CreateBody where
  name : Option JValue
  lastname : Option JValue
  age : Option JValue
  deriving DecidableEq, Repr

/-- The body of a `PATCH /person/:id` request: the allowed fields
`name`, `lastname`, `age` (each possibly absent), plus the list of body
keys outside the allowed set (`extraKeys`), which the body validator of
lines 81-91 inspects. -/
structure PatchBody where
  name : Option JValue
  lastname : Option JValue
  age : Option JValue
  extraKeys : List String
  deriving DecidableEq, Repr

/-! ## Validators of the individual routes -/

/-- The declared validators of `POST /` (lines 29-31): `name`, `lastname`,
`age` must exist, `name` and `lastname` must be strings, and `age` must be
a float in `[1, 150]`. -/
def postValid (b : CreateBody) : Bool :=
  b.name.isSome && b.lastname.isSome && b.age.isSome
    && (b.name.map JValue.isStr).getD false
    && (b.lastname.map JValue.isStr).getD false
    && (b.age.map (isFloatInRange 1 150)).getD false

/-- The structured error list `validationResult` produces for a failing
`POST /` request: one `{field, message}` entry per failed check. -/
def postErrors (b : CreateBody) : List FieldError :=
  (if b.name.isSome then [] else [⟨"name", "Missing param"⟩])
    ++ (if b.lastname.isSome then [] else [⟨"lastname", "Missing param"⟩])
    ++ (if b.age.isSome then [] else [⟨"age", "Missing param"⟩])
    ++ (if (b.name.map JValue.isStr).getD false then []
        else [⟨"name", "Invalid value"⟩])
    ++ (if (b.lastname.map JValue.isStr).getD false then []
        else [⟨"lastname", "Invalid value"⟩])
    ++ (if (b.age.map (isFloatInRange 1 150)).getD false then []
        else [⟨"age", "Invalid value"⟩])

/-- The body validator of `PATCH /person/:id` (lines 81-91): every key of
the body must lie in `{name, lastname, age}`; the request is rejected as
"Bad model" when some key does not. -/
def patchBodyAllowed (b : PatchBody) : Bool :=
  b.extraKeys.isEmpty

/-- The declared validators of `PATCH /person/:id` taken together:
`param("id").custom(validatePersonId)` and the body-keys check. -/
def patchValid (idStr : String) (b : PatchBody) (st : DB) : Bool :=
  validatePersonId idStr st && patchBodyAllowed b

/-- The structured error list for a failing `PATCH /person/:id`. -/
def patchErrors (idStr : String) (b : PatchBody) (st : DB) : List FieldError :=
  (if validatePersonId idStr st then [] else [⟨"id", "Invalid value"⟩])
    ++ (if patchBodyAllowed b then [] else [⟨"", "Bad model"⟩])

/-- The `param("age")` custom validator of `GET /age/:age` (lines
147-160): `Number(age)` must not be `NaN` and the value must lie in
`[1, 150]`. -/
def ageParamValid (s : String) : Bool :=
  match jsNumber (.str s) with
  | some q => decide (1 ≤ q) && decide (q ≤ 150)
  | none => false

/-! ## Response bodies -/

/-- Success body of `DELETE /person/:id` (lines 69-71). -/
structure DeleteBody where
  deletedPersonId : String
  deriving DecidableEq, Repr

/-- Success body of `PATCH /person/:id` (lines 120-122). -/
structure PatchRespBody where
  updatedPersonId : String
  deriving DecidableEq, Repr

/-- Success body of `POST /person/:id/pet/:petId` (lines 240-243). -/
structure AddPetBody where
  addedPetId : String
  updatedPersonId : String
  deriving DecidableEq, Repr

/-- Success body of `POST /person/:id/car/:carId` (lines 369-372). -/
structure AddCarBody where
  updatedPersonId : String
  newCarId : String
  deriving DecidableEq, Repr

/-- One row of the `GET /average/age` aggregation result (lines 193-200):
`{_id: "average", average}`, where `average` is `none` when `$avg` yields
null (no numeric `age` in the group). -/
structure AvgRow where
  _id : String
  average : Option ℚ
  deriving DecidableEq, Repr

/-- Output document of the `GET /person/:id/pets` aggregation: a person
document with `petIds` removed (`$unset`) and the joined `pets` array
embedded (`$lookup ... as: "pets"`). -/
structure PersonWithPets where
  _id : Nat
  name : Option JValue
  lastname : Option JValue
  age : Option JValue
  carId : Option Nat
  updatedAt : Option ℚ
  pets : List PetDoc
  deriving DecidableEq, Repr

/-- Output document of the `GET /person/:id/car` aggregation: a person
document with `carId` removed (`$unset`) and the joined `car` array
embedded (`$lookup ... as: "car"`). -/
structure PersonWithCar where
  _id : Nat
  name : Option JValue
  lastname : Option JValue
  age : Option JValue
  petIds : List Nat
  updatedAt : Option ℚ
  car : List CarDoc
  deriving DecidableEq, Repr

/-! ## Route handlers

Each handler is a function from the request data and the database state
to the response and the next database state, translated from
`people-mongo.js`.  Where mongodb assigns data (the `_id` of an inserted
document) or the clock is read (`Date.now()`), the value enters as an
explicit parameter. -/

/-- `GET /` (lines 15-24): send all people from the database. -/
def getAllPeople (st : DB) : Resp (List PersonDoc) × DB :=
  (.ok st.people, st)

/-- Modelled from the spec: the `Person` model (`src/models/Person.js` is
not in the repository).  Per the spec's data model a new person carries
the submitted `name`, `lastname` and `age`; `insertOne` then adds the
storage-assigned `_id`. -/
def Person.build (b : CreateBody) (newId : Nat) : PersonDoc :=
  { _id := newId, name := b.name, lastname := b.lastname, age := b.age,
    petIds := [], carId := none, updatedAt := none }

/-- `POST /` (lines 27-54): check the validation result; on failure
respond 400 with the error list and leave storage untouched; otherwise
build a `Person` from the body, insert it (storage assigns `newId`) and
send the inserted document back. -/
def postPerson (b : CreateBody) (newId : Nat) (st : DB) :
    Resp PersonDoc × DB :=
  if postValid b then
    let person := Person.build b newId
    (.ok person, { st with people := st.people ++ [person] })
  else
    (.badRequest (postErrors b), st)

/-- `DELETE /person/:id` (lines 56-76).  The handler never consults
`validationResult`: it goes straight to `ObjectId(id)` (which throws on a
malformed id, landing in the `catch` / `sendError` path) and
`deleteOne`, then reports `{deletedPersonId: id}` whether or not a
document was deleted. -/
def deletePerson (idStr : String) (st : DB) : Resp DeleteBody × DB :=
  match parseOid idStr with
  | none => (.error, st)
  | some oid =>
    (.ok ⟨idStr⟩, { st with people := deleteOne st.people oid })

/-- The `$set` document of `PATCH /person/:id` (lines 108-118) applied to
a stored person: `{...req.body, updatedAt: Date.now()}` sets exactly the
fields present in the body and refreshes `updatedAt`. -/
def applyPatch (b : PatchBody) (now : ℚ) (d : PersonDoc) : PersonDoc :=
  { d with
    name := match b.name with | some v => some v | none => d.name
    lastname := match b.lastname with | some v => some v | none => d.lastname
    age := match b.age with | some v => some v | none => d.age
    updatedAt := some now }

/-- `PATCH /person/:id` (lines 78-127): check the validation result (id
validator and body-keys validator); on failure respond 400; otherwise
`updateOne` with `$set {...body, updatedAt: Date.now()}` and send
`{updatedPersonId: id}`. -/
def patchPerson (idStr : String) (b : PatchBody) (now : ℚ) (st : DB) :
    Resp PatchRespBody × DB :=
  if patchValid idStr b st then
    match parseOid idStr with
    | none => (.error, st)
    | some oid =>
      (.ok ⟨idStr⟩,
        { st with people := updateOne st.people oid (applyPatch b now) })
  else
    (.badRequest (patchErrors idStr b st), st)

/-- `GET /name/:name` (lines 130-140): exact-match query on `name`.  The
route param is a string, so the query compares against `.str name`. -/
def getByName (name : String) (st : DB) : Resp (List PersonDoc) × DB :=
  (.ok (st.people.filter (fun d => d.name = some (.str name))), st)

/-- `GET /age/:age` (lines 143-187): check the validation result of the
age param validator; on failure respond 400; otherwise query people whose
`age` equals `Number(req.params.age)`. -/
def getByAge (ageStr : String) (st : DB) : Resp (List PersonDoc) × DB :=
  if ageParamValid ageStr then
    match jsNumber (.str ageStr) with
    | some q =>
      (.ok (st.people.filter (fun d => d.age = some (.num q))), st)
    | none => (.error, st)
  else
    (.badRequest [⟨"age", "Invalid value"⟩], st)

/-- The numeric `age` values of a list of people, in storage order:
`$avg` skips documents whose `age` is missing or not a number. -/
def numericAges (people : List PersonDoc) : List ℚ :=
  people.filterMap (fun d =>
    match d.age with
    | some (.num q) => some q
    | _ => none)

/-- The `$group {_id: "average", average: {$avg: "$age"}}` stage of
`GET /average/age` (lines 193-200): on an empty collection `$group`
emits no document at all; otherwise one document whose `average` is the
mean of the numeric `age` values (`$avg` yields null when no numeric
value remains). -/
def groupAverage (people : List PersonDoc) : List AvgRow :=
  match people with
  | [] => []
  | _ =>
    [⟨"average",
      if numericAges people = [] then none
      else some ((numericAges people).sum / ((numericAges people).length : ℚ))⟩]

/-- `GET /average/age` (lines 189-213): run the averaging aggregation and
send its result. -/
def averageAge (st : DB) : Resp (List AvgRow) × DB :=
  (.ok (groupAverage st.people), st)

/-- The `$push {petIds: ObjectId(petId)}` update of
`POST /person/:id/pet/:petId` (line 236) applied to a stored person:
append the pet id to the `petIds` sequence. -/
def pushPetId (pid : Nat) (d : PersonDoc) : PersonDoc :=
  { d with petIds := d.petIds ++ [pid] }

/-- `POST /person/:id/pet/:petId` (lines 216-248): check the validation
result (`validatePersonId`, `validatePetId`); on failure respond 400;
otherwise `updateOne` with `$push {petIds: ObjectId(petId)}` and send
`{addedPetId, updatedPersonId}`. -/
def addPet (idStr petStr : String) (st : DB) : Resp AddPetBody × DB :=
  if validatePersonId idStr st && validatePetId petStr st then
    match parseOid idStr, parseOid petStr with
    | some oid, some pid =>
      (.ok ⟨petStr, idStr⟩,
        { st with people := updateOne st.people oid (pushPetId pid) })
    | _, _ => (.error, st)
  else
    (.badRequest [⟨"id", "Invalid value"⟩], st)

/-- The `$lookup` stage of `GET /person/:id/pets` (lines 271-294) applied
to one person: the pets whose `_id` is a member of the person's `petIds`
(`$in: ["$_id", "$$ids"]`), in the order of the `pets` collection,
followed by `$unset ["petIds"]`. -/
def embedPets (pets : List PetDoc) (d : PersonDoc) : PersonWithPets :=
  { _id := d._id, name := d.name, lastname := d.lastname, age := d.age,
    carId := d.carId, updatedAt := d.updatedAt,
    pets := pets.filter (fun p => d.petIds.contains p._id) }

/-- `GET /person/:id/pets` (lines 250-311): check the validation result
(`validatePersonId`); on failure respond 400; otherwise run the pipeline
`$match {_id} / $lookup pets / $unset petIds` and send its result. -/
def getPets (idStr : String) (st : DB) : Resp (List PersonWithPets) × DB :=
  if validatePersonId idStr st then
    match parseOid idStr with
    | none => (.error, st)
    | some oid =>
      (.ok ((st.people.filter (fun d => d._id = oid)).map
        (embedPets st.pets)), st)
  else
    (.badRequest [⟨"id", "Invalid value"⟩], st)

/-- The `$lookup` stage of `GET /person/:id/car` (lines 320-327) applied
to one person: the cars whose `_id` equals the person's `carId`
(`localField: "carId", foreignField: "_id"`; a missing `carId` matches no
car), followed by `$unset ["carId"]`. -/
def embedCar (cars : List CarDoc) (d : PersonDoc) : PersonWithCar :=
  { _id := d._id, name := d.name, lastname := d.lastname, age := d.age,
    petIds := d.petIds, updatedAt := d.updatedAt,
    car := match d.carId with
      | some cid => cars.filter (fun c => c._id = cid)
      | none => [] }

set_option linter.unusedVariables false in
/-- `GET /person/:id/car` (lines 313-342).  The handler never consults
`validationResult` and never uses the path id: the pipeline
`$lookup cars / $unset carId` runs unscoped over the whole `people`
collection. -/
def getCar (idStr : String) (st : DB) : Resp (List PersonWithCar) × DB :=
  (.ok (st.people.map (embedCar st.cars)), st)

/-- `POST /person/:id/car/:carId` (lines 344-377): check the validation
result (`validatePersonId`, `validateCarId`); on failure respond 400;
otherwise `updateOne` with `$set {carId: ObjectId(carId)}` and send
`{updatedPersonId, newCarId}`. -/
def addCar (idStr carStr : String) (st : DB) : Resp AddCarBody × DB :=
  if validatePersonId idStr st && validateCarId carStr st then
    match parseOid idStr, parseOid carStr with
    | some oid, some cid =>
      (.ok ⟨idStr, carStr⟩,
        { st with
          people := updateOne st.people oid
            (fun d => { d with carId := some cid }) })
    | _, _ => (.error, st)
  else
    (.badRequest [⟨"id", "Invalid value"⟩], st)

/-! ## Concrete fixtures used by witnesses and counterexamples -/

/-- A well-formed object id string denoting id 1. -/
def oidStrA : String := "000000000000000000000001"

/-- A well-formed object id string denoting id 2. -/
def oidStrB : String := "000000000000000000000002"

/-- A well-formed object id string denoting id 3. -/
def oidStrC : String := "000000000000000000000003"

/-- A malformed object id string: `ObjectId` rejects it and the id
validators fail on it. -/
def badIdStr : String := "zzz"

/-- A concrete stored person. -/
def annDoc : PersonDoc :=
  { _id := 1, name := some (.str "Ann"), lastname := some (.str "Lee"),
    age := some (.num 30), petIds := [], carId := some 3,
    updatedAt := none }

/-- A concrete stored pet. -/
def dogPet : PetDoc := { _id := 2, payload := "dog" }

/-- A concrete stored car. -/
def vwCar : CarDoc := { _id := 3, payload := "vw" }

/-- A concrete database: one person (id 1, car 3), one pet (id 2), one
car (id 3). -/
def baseDB : DB := { people := [annDoc], pets := [dogPet], cars := [vwCar] }

/-- A database with no documents at all. -/
def emptyDB : DB := { people := [], pets := [], cars := [] }

/-- A person holding a stale pet id: `petIds` contains 5 but no pet with
id 5 exists. -/
def staleDoc : PersonDoc := { annDoc with petIds := [5] }

/-- A database where `staleDoc`'s pet reference is dangling. -/
def staleDB : DB := { people := [staleDoc], pets := [], cars := [] }

/-- A database with three people of ages 10, 20 and 30. -/
def triAgesDB : DB :=
  { people :=
      [{ annDoc with _id := 1, age := some (.num 10) },
       { annDoc with _id := 2, age := some (.num 20) },
       { annDoc with _id := 3, age := some (.num 30) }],
    pets := [], cars := [] }

/-! ## Helper lemmas -/

theorem updateOne_filter_eq (l : List PersonDoc) (oid : Nat)
    (f : PersonDoc → PersonDoc) (d0 : PersonDoc)
    (hf : (f d0)._id = d0._id)
    (hu : l.filter (fun d => d._id = oid) = [d0]) :
    (updateOne l oid f).filter (fun d => d._id = oid) = [f d0] := by
  induction l with
  | nil => simp at hu
  | cons a rest ih =>
    by_cases ha : a._id = oid
    · rw [List.filter_cons_of_pos (by simpa using ha)] at hu
      injection hu with h1 h2
      subst h1
      simp only [updateOne, if_pos ha]
      rw [List.filter_cons_of_pos (by simpa [hf] using ha), h2]
    · rw [List.filter_cons_of_neg (by simpa using ha)] at hu
      simp only [updateOne, if_neg ha]
      rw [List.filter_cons_of_neg (by simpa using ha), ih hu]

theorem mem_updateOne_of_ne (l : List PersonDoc) (oid : Nat)
    (f : PersonDoc → PersonDoc) (d : PersonDoc)
    (hd : d ∈ l) (hne : ¬ d._id = oid) : d ∈ updateOne l oid f := by
  induction l with
  | nil => simp at hd
  | cons a rest ih =>
    rcases List.mem_cons.mp hd with h | h
    · subst h
      simp only [updateOne, if_neg hne]
      exact List.mem_cons_self _ _
    · by_cases ha : a._id = oid
      · simp only [updateOne, if_pos ha]
        exact List.mem_cons_of_mem _ h
      · simp only [updateOne, if_neg ha]
        exact List.mem_cons_of_mem _ (ih h)

theorem map_id_updateOne (l : List PersonDoc) (oid : Nat)
    (f : PersonDoc → PersonDoc) (hf : ∀ d, (f d)._id = d._id) :
    (updateOne l oid f).map (fun d => d._id) = l.map (fun d => d._id) := by
  induction l with
  | nil => rfl
  | cons a rest ih =>
    by_cases ha : a._id = oid
    · simp only [updateOne, if_pos ha, List.map_cons, hf]
    · simp only [updateOne, if_neg ha, List.map_cons, ih]

theorem any_id_eq_of_map_id_eq (l l' : List PersonDoc) (oid : Nat)
    (h : l.map (fun d => d._id) = l'.map (fun d => d._id)) :
    l.any (fun d => d._id = oid) = l'.any (fun d => d._id = oid) := by
  have hl : ∀ m : List PersonDoc,
      m.any (fun d => d._id = oid) = (m.map (fun d => d._id)).any
        (fun n => n = oid) := by
    intro m
    induction m with
    | nil => rfl
    | cons a rest ih => simp [List.any_cons, ih]
  rw [hl, hl, h]

theorem deleteOne_of_all_ne (l : List PersonDoc) (oid : Nat)
    (h : ∀ d ∈ l, ¬ d._id = oid) : deleteOne l oid = l := by
  induction l with
  | nil => rfl
  | cons a rest ih =>
    have ha := h a (List.mem_cons_self _ _)
    simp only [deleteOne, if_neg ha]
    rw [ih (fun d hd => h d (List.mem_cons_of_mem _ hd))]

theorem not_mem_id_deleteOne (l : List PersonDoc) (oid : Nat)
    (hnd : (l.map (fun d => d._id)).Nodup) :
    ∀ d ∈ deleteOne l oid, ¬ d._id = oid := by
  induction l with
  | nil => intro d hd; simp [deleteOne] at hd
  | cons a rest ih =>
    rw [List.map_cons, List.nodup_cons] at hnd
    by_cases ha : a._id = oid
    · intro d hd hdeq
      simp only [deleteOne, if_pos ha] at hd
      have : d._id ∈ rest.map (fun d => d._id) :=
        List.mem_map_of_mem (fun d => d._id) hd
      rw [hdeq, ← ha] at this
      exact hnd.1 this
    · intro d hd hdeq
      simp only [deleteOne, if_neg ha] at hd
      rcases List.mem_cons.mp hd with h | h
      · exact ha (h ▸ hdeq)
      · exact ih hnd.2 d h hdeq

theorem postErrors_eq_nil_iff (b : CreateBody) :
    postErrors b = [] ↔ postValid b = true := by
  simp only [postErrors, postValid, List.append_eq_nil]
  constructor
  · intro h
    split_ifs at h <;> simp_all
  · intro h
    simp only [Bool.and_eq_true] at h
    split_ifs <;> simp_all

theorem patchErrors_eq_nil_iff (idStr : String) (b : PatchBody) (st : DB) :
    patchErrors idStr b st = [] ↔ patchValid idStr b st = true := by
  simp only [patchErrors, patchValid, List.append_eq_nil]
  constructor
  · intro h
    split_ifs at h <;> simp_all
  · intro h
    simp only [Bool.and_eq_true] at h
    split_ifs <;> simp_all

/-- A fully valid creation body. -/
def cbW : CreateBody :=
  { name := some (.str "Zoe"), lastname := some (.str "Fox"),
    age := some (.num 30) }

/-- A creation body failing every `POST /` validator. -/
def cbBad : CreateBody := { name := none, lastname := none, age := none }

/-- A patch body carrying a key outside the allowed set. -/
def bBad : PatchBody :=
  { name := none, lastname := none, age := none, extraKeys := ["hack"] }

/-! ## C1 -/

/-- The patch body `{age: 9999}`. -/
def bAge9999 : PatchBody :=
  { name := none, lastname := none, age := some (.num 9999),
    extraKeys := [] }

/-- `annDoc` after the `{age: 9999}` patch at time 5. -/
def annAge9999 : PersonDoc :=
  { annDoc with age := some (.num 9999), updatedAt := some 5 }

/-- C1, counterexample: `PATCH /person/:id` validates only the body keys,
never the age value.  Patching the person of `baseDB` with `{age: 9999}`
succeeds (`{updatedPersonId}`) and stores age 9999, which lies outside
`[1, 150]`. -/
theorem C1_counterexample :
    patchPerson oidStrA bAge9999 5 baseDB
      = (.ok ⟨oidStrA⟩, { baseDB with people := [annAge9999] }) ∧
    ¬ ((9999 : ℚ) ≤ 150) := by
  decide

/-- C1, amended: the `[1, 150]` age bound holds for every record
successfully inserted by `POST /` (its validator enforces the range), but
`PATCH /person/:id` does not validate the age value, so a successful
update may store an age outside `[1, 150]`. -/
theorem C1_amended_theorem (cb : CreateBody) (newId : Nat) (st : DB)
    (h : postValid cb = true) :
    (postPerson cb newId st).2.people = st.people ++ [Person.build cb newId] ∧
    ∀ q : ℚ, (Person.build cb newId).age = some (.num q) →
      1 ≤ q ∧ q ≤ 150 := by
  constructor
  · simp [postPerson, h]
  · intro q hq
    have hage : (cb.age.map (isFloatInRange 1 150)).getD false = true := by
      simp only [postValid, Bool.and_eq_true] at h
      exact h.2
    have hq' : cb.age = some (.num q) := hq
    rw [hq'] at hage
    simp [isFloatInRange, jsNumber] at hage
    exact hage

/-- C1, witness for the amended theorem at a concrete valid creation. -/
theorem C1_amended_witness :
    (postPerson cbW 7 baseDB).2.people
        = baseDB.people ++ [Person.build cbW 7] ∧
    (1 ≤ (30 : ℚ) ∧ (30 : ℚ) ≤ 150) :=
  ⟨(C1_amended_theorem cbW 7 baseDB (by decide)).1,
   (C1_amended_theorem cbW 7 baseDB (by decide)).2 30 (by decide)⟩

/-! ## C2 -/

/-- C2, counterexample: with the malformed id `"zzz"` the declared person
id validator fails, yet `GET /person/:id/car` never consults the
validation result and answers 200 with the unscoped aggregation, and
`DELETE /person/:id` never consults it either and lands in the
`ObjectId`-throw / `sendError` path — neither handler returns 400. -/
theorem C2_counterexample :
    validatePersonId badIdStr baseDB = false ∧
    getCar badIdStr baseDB = (.ok [embedCar baseDB.cars annDoc], baseDB) ∧
    deletePerson badIdStr baseDB = (.error, baseDB) := by
  decide

/-- C2, amended: the handlers that do consult `validationResult`
(`POST /`, `PATCH /person/:id`, `GET /age/:age`,
`POST /person/:id/pet/:petId`, `GET /person/:id/pets`,
`POST /person/:id/car/:carId`) return 400 with a structured error list
and leave the database unchanged when their declared validators fail;
`DELETE /person/:id` and `GET /person/:id/car` never consult the
validation result. -/
theorem C2_amended_theorem (st : DB) (cb : CreateBody) (newId : Nat)
    (idStr petStr carStr ageStr : String) (b : PatchBody) (now : ℚ) :
    (postValid cb = false →
      postPerson cb newId st = (.badRequest (postErrors cb), st) ∧
      postErrors cb ≠ []) ∧
    (patchValid idStr b st = false →
      patchPerson idStr b now st
          = (.badRequest (patchErrors idStr b st), st) ∧
      patchErrors idStr b st ≠ []) ∧
    (ageParamValid ageStr = false →
      getByAge ageStr st = (.badRequest [⟨"age", "Invalid value"⟩], st)) ∧
    ((validatePersonId idStr st && validatePetId petStr st) = false →
      addPet idStr petStr st = (.badRequest [⟨"id", "Invalid value"⟩], st)) ∧
    (validatePersonId idStr st = false →
      getPets idStr st = (.badRequest [⟨"id", "Invalid value"⟩], st)) ∧
    ((validatePersonId idStr st && validateCarId carStr st) = false →
      addCar idStr carStr st = (.badRequest [⟨"id", "Invalid value"⟩], st)) := by
  refine ⟨?_, ?_, ?_, ?_, ?_, ?_⟩
  · intro h
    refine ⟨by simp [postPerson, h], ?_⟩
    intro hnil
    rw [(postErrors_eq_nil_iff cb).mp hnil] at h
    simp at h
  · intro h
    refine ⟨by simp [patchPerson, h], ?_⟩
    intro hnil
    rw [(patchErrors_eq_nil_iff idStr b st).mp hnil] at h
    simp at h
  · intro h
    simp [getByAge, h]
  · intro h
    simp [addPet, h]
  · intro h
    simp [getPets, h]
  · intro h
    simp [addCar, h]

/-- C2, witness for the amended theorem: every consulting route rejects a
concrete invalid request with 400 and an unchanged database. -/
theorem C2_amended_witness :
    postPerson cbBad 7 baseDB = (.badRequest (postErrors cbBad), baseDB) ∧
    patchPerson badIdStr bBad 0 baseDB
        = (.badRequest (patchErrors badIdStr bBad baseDB), baseDB) ∧
    getByAge "abc" baseDB = (.badRequest [⟨"age", "Invalid value"⟩], baseDB) ∧
    addPet badIdStr badIdStr baseDB
        = (.badRequest [⟨"id", "Invalid value"⟩], baseDB) ∧
    getPets badIdStr baseDB
        = (.badRequest [⟨"id", "Invalid value"⟩], baseDB) ∧
    addCar badIdStr badIdStr baseDB
        = (.badRequest [⟨"id", "Invalid value"⟩], baseDB) := by
  have T := C2_amended_theorem baseDB cbBad 7 badIdStr badIdStr badIdStr
    "abc" bBad 0
  exact ⟨(T.1 (by decide)).1, (T.2.1 (by decide)).1, T.2.2.1 (by decide),
    T.2.2.2.1 (by decide), T.2.2.2.2.1 (by decide), T.2.2.2.2.2 (by decide)⟩

/-! ## C3 -/

/-- C3: `GET /person/:id/car` ignores the path id entirely — any two ids
give identical results — and answers the unscoped aggregation: one output
document per person in the collection (same ids, same order), each
embedding as `car` exactly the cars whose `_id` equals the person's
`carId`, with `carId` itself absent from the output type; the database is
untouched. -/
theorem C3_theorem (id1 id2 : String) (st : DB) :
    getCar id1 st = getCar id2 st ∧
    (getCar id1 st).2 = st ∧
    (getCar id1 st).1 = .ok (st.people.map (embedCar st.cars)) ∧
    (st.people.map (embedCar st.cars)).map (fun e => e._id)
      = st.people.map (fun d => d._id) ∧
    ∀ d ∈ st.people, ∀ c : CarDoc,
      c ∈ (embedCar st.cars d).car ↔ (c ∈ st.cars ∧ d.carId = some c._id) := by
  refine ⟨rfl, rfl, rfl, by simp [embedCar], ?_⟩
  intro d _ c
  cases hcid : d.carId with
  | none => simp [embedCar, hcid]
  | some cid =>
    simp only [embedCar, hcid, List.mem_filter, decide_eq_true_eq]
    constructor
    · rintro ⟨hc, he⟩
      exact ⟨hc, by rw [he]⟩
    · rintro ⟨hc, he⟩
      injection he with he
      exact ⟨hc, he.symm⟩

/-- C3, witness at the concrete database `baseDB`. -/
theorem C3_witness :
    getCar badIdStr baseDB = getCar oidStrA baseDB ∧
    (vwCar ∈ (embedCar baseDB.cars annDoc).car ↔
      (vwCar ∈ baseDB.cars ∧ annDoc.carId = some vwCar._id)) :=
  ⟨(C3_theorem badIdStr oidStrA baseDB).1,
   (C3_theorem badIdStr oidStrA baseDB).2.2.2.2 annDoc (by decide) vwCar⟩

/-! ## C4 -/

/-- C4: for a body with string `name` and `lastname` and numeric `age` in
`[1, 150]`, `POST /` appends exactly one new person document (built from
the body, with the storage-assigned id) to the collection and answers 200
with that document: the new id together with the submitted fields
unchanged. -/
theorem C4_theorem (cb : CreateBody) (newId : Nat) (st : DB)
    (nm ln : String) (q : ℚ)
    (hn : cb.name = some (.str nm)) (hl : cb.lastname = some (.str ln))
    (ha : cb.age = some (.num q)) (h1 : 1 ≤ q) (h2 : q ≤ 150) :
    postPerson cb newId st =
      (.ok (Person.build cb newId),
       { st with people := st.people ++ [Person.build cb newId] }) ∧
    (Person.build cb newId)._id = newId ∧
    (Person.build cb newId).name = some (.str nm) ∧
    (Person.build cb newId).lastname = some (.str ln) ∧
    (Person.build cb newId).age = some (.num q) := by
  have hv : postValid cb = true := by
    simp [postValid, hn, hl, ha, JValue.isStr, isFloatInRange, jsNumber]
    exact ⟨h1, h2⟩
  refine ⟨by simp [postPerson, hv], rfl, ?_, ?_, ?_⟩
  · simp [Person.build, hn]
  · simp [Person.build, hl]
  · simp [Person.build, ha]

/-- C4, witness at a concrete valid creation against `baseDB`. -/
theorem C4_witness :
    postPerson cbW 7 baseDB =
      (.ok (Person.build cbW 7),
       { baseDB with people := baseDB.people ++ [Person.build cbW 7] }) :=
  (C4_theorem cbW 7 baseDB "Zoe" "Fox" 30 rfl rfl rfl (by decide)
    (by decide)).1

/-! ## C5 -/

/-- C5: for every well-formed id, `DELETE /person/:id` answers success
with `{deletedPersonId: id}` whether or not a matching person exists;
when no person matches, the collection is unchanged (idempotent delete,
no distinct 404), and when ids are unique (the storage invariant),
deleting leaves no document with that id in the subsequent `GET /`
listing. -/
theorem C5_theorem (idStr : String) (oid : Nat) (st : DB)
    (hp : parseOid idStr = some oid) :
    deletePerson idStr st =
      (.ok ⟨idStr⟩, { st with people := deleteOne st.people oid }) ∧
    ((∀ d ∈ st.people, ¬ d._id = oid) → deleteOne st.people oid = st.people) ∧
    (getAllPeople { st with people := deleteOne st.people oid }).1
      = .ok (deleteOne st.people oid) ∧
    ((st.people.map (fun d => d._id)).Nodup →
      ∀ d ∈ deleteOne st.people oid, ¬ d._id = oid) := by
  refine ⟨by simp [deletePerson, hp], ?_, rfl, ?_⟩
  · exact deleteOne_of_all_ne st.people oid
  · exact not_mem_id_deleteOne st.people oid

/-- C5, witness: deleting the existing person of `baseDB` empties the
listing, and deleting the absent id 2 leaves the collection unchanged. -/
theorem C5_witness :
    deletePerson oidStrA baseDB
      = (.ok ⟨oidStrA⟩, { baseDB with people := [] }) ∧
    deleteOne baseDB.people 2 = baseDB.people := by
  have h1 := (C5_theorem oidStrA 1 baseDB (by decide)).1
  have h2 := (C5_theorem oidStrB 2 baseDB (by decide)).2.1 (by decide)
  constructor
  · rw [h1]; decide
  · exact h2

/-! ## C6 -/

theorem addPet_step (idStr petStr : String) (oid pid : Nat) (st : DB)
    (d0 : PersonDoc)
    (hp : parseOid idStr = some oid) (hq : parseOid petStr = some pid)
    (h1 : st.people.any (fun d => d._id = oid) = true)
    (h2 : st.pets.any (fun p => p._id = pid) = true)
    (hu : st.people.filter (fun d => d._id = oid) = [d0]) :
    addPet idStr petStr st =
      (.ok ⟨petStr, idStr⟩,
       { st with people := updateOne st.people oid (pushPetId pid) }) ∧
    (updateOne st.people oid (pushPetId pid)).filter (fun d => d._id = oid)
      = [pushPetId pid d0] ∧
    (updateOne st.people oid (pushPetId pid)).any (fun d => d._id = oid)
      = true := by
  refine ⟨?_, ?_, ?_⟩
  · simp [addPet, validatePersonId, validatePetId, hp, hq, h1, h2]
  · exact updateOne_filter_eq st.people oid _ d0 rfl hu
  · rw [any_id_eq_of_map_id_eq _ st.people oid
      (map_id_updateOne st.people oid (pushPetId pid) (fun d => rfl))]
    exact h1

/-- C6: attaching the same pet twice to the same person succeeds both
times and appends the pet id unconditionally: the person's `petIds`
afterwards is the original sequence followed by the pet id twice, so the
duplicate is preserved (the id occurs at least twice). -/
theorem C6_theorem (idStr petStr : String) (oid pid : Nat) (st : DB)
    (d0 : PersonDoc)
    (hp : parseOid idStr = some oid) (hq : parseOid petStr = some pid)
    (h1 : validatePersonId idStr st = true)
    (h2 : validatePetId petStr st = true)
    (hu : st.people.filter (fun d => d._id = oid) = [d0]) :
    (addPet idStr petStr st).1 = .ok ⟨petStr, idStr⟩ ∧
    (addPet idStr petStr (addPet idStr petStr st).2).1
      = .ok ⟨petStr, idStr⟩ ∧
    ((addPet idStr petStr (addPet idStr petStr st).2).2).people.filter
        (fun d => d._id = oid)
      = [{ d0 with petIds := d0.petIds ++ [pid, pid] }] ∧
    2 ≤ (d0.petIds ++ [pid, pid]).count pid := by
  have h1' : st.people.any (fun d => d._id = oid) = true := by
    simpa [validatePersonId, hp] using h1
  have h2' : st.pets.any (fun p => p._id = pid) = true := by
    simpa [validatePetId, hq] using h2
  obtain ⟨e1, f1, a1⟩ := addPet_step idStr petStr oid pid st d0 hp hq h1' h2' hu
  obtain ⟨e2, f2, a2⟩ := addPet_step idStr petStr oid pid
    { st with people := updateOne st.people oid (pushPetId pid) }
    (pushPetId pid d0) hp hq a1 h2' f1
  refine ⟨by rw [e1], ?_, ?_, ?_⟩
  · rw [e1]
    simp only [e2]
  · rw [e1]
    simp only [e2]
    simpa [pushPetId, List.append_assoc] using f2
  · simp [List.count_append]

/-- C6, witness: attaching pet 2 twice to person 1 of `baseDB` leaves
`petIds = [2, 2]`. -/
theorem C6_witness :
    ((addPet oidStrA oidStrB
        (addPet oidStrA oidStrB baseDB).2).2).people.filter
        (fun d => d._id = 1)
      = [{ annDoc with petIds := [2, 2] }] := by
  have h := (C6_theorem oidStrA oidStrB 1 2 baseDB annDoc (by decide)
    (by decide) (by decide) (by decide) (by decide)).2.2.1
  rw [h]
  decide

/-! ## C7 -/

/-- A person owning pet 2. -/
def petOwnerDoc : PersonDoc := { annDoc with petIds := [2] }

/-- A database where `petOwnerDoc`'s pet reference resolves. -/
def petOwnerDB : DB := { people := [petOwnerDoc], pets := [dogPet], cars := [] }

/-- C7, counterexample: in a state where the person's `petIds` holds the
stale id 5 (no pet document with id 5 exists), `GET /person/:id/pets`
succeeds but the embedded `pets` array is empty, so its ids are not the
set of ids in the original `petIds`. -/
theorem C7_counterexample :
    getPets oidStrA staleDB = (.ok [embedPets staleDB.pets staleDoc], staleDB) ∧
    (embedPets staleDB.pets staleDoc).pets = [] ∧
    staleDoc.petIds = [5] ∧
    ¬ (5 ∈ (embedPets staleDB.pets staleDoc).pets.map (fun p => p._id)) := by
  decide

/-- C7, amended: for a valid id of an existing person whose `petIds` all
resolve in the `pets` collection, `GET /person/:id/pets` answers that
person with `petIds` structurally removed and an embedded `pets` array
whose element ids are exactly the set of ids in the original `petIds`;
when some `petIds` entry is stale (the referenced pet was deleted), the
embedded array only covers the resolving ids. -/
theorem C7_amended_theorem (idStr : String) (oid : Nat) (st : DB)
    (d0 : PersonDoc)
    (hv : validatePersonId idStr st = true)
    (hp : parseOid idStr = some oid)
    (hu : st.people.filter (fun d => d._id = oid) = [d0])
    (hall : d0.petIds.all (fun pid => st.pets.any (fun p => p._id = pid))
      = true) :
    getPets idStr st = (.ok [embedPets st.pets d0], st) ∧
    ∀ x : Nat,
      x ∈ (embedPets st.pets d0).pets.map (fun p => p._id) ↔
      x ∈ d0.petIds := by
  constructor
  · simp [getPets, hv, hp, hu]
  · intro x
    simp only [embedPets, List.mem_map, List.mem_filter]
    constructor
    · rintro ⟨p, ⟨_, hcont⟩, rfl⟩
      simpa [List.contains, List.elem_iff] using hcont
    · intro hx
      rw [List.all_eq_true] at hall
      have := hall x hx
      rw [List.any_eq_true] at this
      obtain ⟨p, hps, hpe⟩ := this
      refine ⟨p, ⟨hps, ?_⟩, by simpa using hpe⟩
      have hpx : p._id = x := by simpa using hpe
      simpa [List.contains, List.elem_iff, hpx] using hx

/-- C7, witness: listing the pets of person 1 of `petOwnerDB` embeds the
pet array, and pet id 2 appears in it exactly as it appears in the
original `petIds`. -/
theorem C7_witness :
    getPets oidStrA petOwnerDB
      = (.ok [embedPets petOwnerDB.pets petOwnerDoc], petOwnerDB) ∧
    (2 ∈ (embedPets petOwnerDB.pets petOwnerDoc).pets.map (fun p => p._id) ↔
      2 ∈ petOwnerDoc.petIds) :=
  ⟨(C7_amended_theorem oidStrA 1 petOwnerDB petOwnerDoc (by decide)
      (by decide) (by decide) (by decide)).1,
   (C7_amended_theorem oidStrA 1 petOwnerDB petOwnerDoc (by decide)
      (by decide) (by decide) (by decide)).2 2⟩

/-! ## C8 -/

/-- C8: a `PATCH /person/:id` whose body keys are a subset of
`{name, lastname, age}` (and whose validators pass) updates exactly the
provided fields of the matched document: a provided field takes the
submitted value, an absent field keeps its old value, `updatedAt` is
refreshed to the current time `now` (which is ≥ any time `t0` taken
before the call), `_id`, `petIds` and `carId` are untouched, and every
other document of the collection is unchanged. -/
theorem C8_theorem (idStr : String) (b : PatchBody) (oid : Nat) (st : DB)
    (d0 : PersonDoc) (t0 now : ℚ)
    (hv : patchValid idStr b st = true)
    (hp : parseOid idStr = some oid)
    (hu : st.people.filter (fun d => d._id = oid) = [d0])
    (ht : t0 ≤ now) :
    patchPerson idStr b now st =
      (.ok ⟨idStr⟩,
       { st with people := updateOne st.people oid (applyPatch b now) }) ∧
    (updateOne st.people oid (applyPatch b now)).filter
        (fun d => d._id = oid) = [applyPatch b now d0] ∧
    (applyPatch b now d0).updatedAt = some now ∧
    t0 ≤ now ∧
    (∀ v, b.name = some v → (applyPatch b now d0).name = some v) ∧
    (b.name = none → (applyPatch b now d0).name = d0.name) ∧
    (∀ v, b.lastname = some v → (applyPatch b now d0).lastname = some v) ∧
    (b.lastname = none → (applyPatch b now d0).lastname = d0.lastname) ∧
    (∀ v, b.age = some v → (applyPatch b now d0).age = some v) ∧
    (b.age = none → (applyPatch b now d0).age = d0.age) ∧
    (applyPatch b now d0)._id = d0._id ∧
    (applyPatch b now d0).petIds = d0.petIds ∧
    (applyPatch b now d0).carId = d0.carId ∧
    (∀ d ∈ st.people, ¬ d._id = oid →
      d ∈ (patchPerson idStr b now st).2.people) := by
  have he : patchPerson idStr b now st =
      (.ok ⟨idStr⟩,
       { st with people := updateOne st.people oid (applyPatch b now) }) := by
    simp [patchPerson, hv, hp]
  refine ⟨he, updateOne_filter_eq st.people oid _ d0 rfl hu, rfl, ht,
    ?_, ?_, ?_, ?_, ?_, ?_, rfl, rfl, rfl, ?_⟩
  · intro v hbv; simp [applyPatch, hbv]
  · intro hbn; simp [applyPatch, hbn]
  · intro v hbv; simp [applyPatch, hbv]
  · intro hbn; simp [applyPatch, hbn]
  · intro v hbv; simp [applyPatch, hbv]
  · intro hbn; simp [applyPatch, hbn]
  · intro d hd hdne
    rw [he]
    exact mem_updateOne_of_ne st.people oid _ d hd hdne

/-- The patch body `{name: "Bea"}`. -/
def bNameOnly : PatchBody :=
  { name := some (.str "Bea"), lastname := none, age := none,
    extraKeys := [] }

/-- C8, witness: patching person 1 of `baseDB` with `{name: "Bea"}` at
time 5 updates the name, keeps the age, and stamps `updatedAt`. -/
theorem C8_witness :
    patchPerson oidStrA bNameOnly 5 baseDB =
      (.ok ⟨oidStrA⟩,
       { baseDB with
         people := updateOne baseDB.people 1 (applyPatch bNameOnly 5) }) ∧
    (applyPatch bNameOnly 5 annDoc).name = some (.str "Bea") ∧
    (applyPatch bNameOnly 5 annDoc).age = annDoc.age ∧
    (applyPatch bNameOnly 5 annDoc).updatedAt = some 5 := by
  obtain ⟨he, -, hup, -, hname, -, -, -, -, hage, -, -, -, -⟩ :=
    C8_theorem oidStrA bNameOnly 1 baseDB annDoc 5 5 (by decide) (by decide)
      (by decide) (le_refl 5)
  exact ⟨he, hname _ rfl, hage rfl, hup⟩

/-! ## C9 -/

/-- C9, counterexample: on an empty `people` collection, `$group` emits
no document at all, so `GET /average/age` answers the empty array rather
than a one-element array. -/
theorem C9_counterexample :
    averageAge emptyDB = (.ok (groupAverage emptyDB.people), emptyDB) ∧
    groupAverage emptyDB.people = [] := by
  decide

/-- C9, amended: on a nonempty `people` collection, `GET /average/age`
answers the one-element array `[{_id: "average", average}]` where
`average` is the mean of the numeric `age` values (null when none is
numeric); on an empty collection the answer is the empty array. -/
theorem C9_amended_theorem (st : DB) (h : st.people ≠ []) :
    averageAge st =
      (.ok [⟨"average",
        if numericAges st.people = [] then none
        else some ((numericAges st.people).sum
          / ((numericAges st.people).length : ℚ))⟩], st) := by
  have hg : groupAverage st.people =
      [⟨"average",
        if numericAges st.people = [] then none
        else some ((numericAges st.people).sum
          / ((numericAges st.people).length : ℚ))⟩] := by
    cases hst : st.people with
    | nil => exact absurd hst h
    | cons a l => rfl
  unfold averageAge
  rw [hg]

/-- C9, witness: with people of ages 10, 20 and 30 the average is 20. -/
theorem C9_amended_witness :
    averageAge triAgesDB = (.ok [⟨"average", some 20⟩], triAgesDB) := by
  rw [C9_amended_theorem triAgesDB (by decide)]
  have h10 : numericAges triAgesDB.people = [(10 : ℚ), 20, 30] := rfl
  rw [h10]
  norm_num
  intro hc
  simp at hc

/-! ## C10 -/

/-- The empty patch body `{}`. -/
def emptyPatchBody : PatchBody :=
  { name := none, lastname := none, age := none, extraKeys := [] }

/-- C10: a `PATCH /person/:id` with the empty body `{}` passes the
body-keys validation (no key lies outside the allowed set) and, for a
valid id, still performs the update: the matched document changes only in
`updatedAt`, and the handler answers success `{updatedPersonId: id}`. -/
theorem C10_theorem (idStr : String) (oid : Nat) (st : DB)
    (d0 : PersonDoc) (now : ℚ)
    (hv : validatePersonId idStr st = true)
    (hp : parseOid idStr = some oid)
    (hu : st.people.filter (fun d => d._id = oid) = [d0]) :
    patchBodyAllowed emptyPatchBody = true ∧
    patchValid idStr emptyPatchBody st = true ∧
    patchPerson idStr emptyPatchBody now st =
      (.ok ⟨idStr⟩,
       { st with
         people := updateOne st.people oid (applyPatch emptyPatchBody now) }) ∧
    (updateOne st.people oid (applyPatch emptyPatchBody now)).filter
        (fun d => d._id = oid)
      = [{ d0 with updatedAt := some now }] := by
  have hpv : patchValid idStr emptyPatchBody st = true := by
    simp [patchValid, patchBodyAllowed, emptyPatchBody, hv]
  refine ⟨rfl, hpv, by simp [patchPerson, hpv, hp], ?_⟩
  exact updateOne_filter_eq st.people oid _ d0 rfl hu

/-- C10, witness: the empty patch on person 1 of `baseDB` succeeds. -/
theorem C10_witness :
    patchPerson oidStrA emptyPatchBody 7 baseDB =
      (.ok ⟨oidStrA⟩,
       { baseDB with
         people := updateOne baseDB.people 1 (applyPatch emptyPatchBody 7) }) :=
  (C10_theorem oidStrA 1 baseDB annDoc 7 (by decide) (by decide)
    (by decide)).2.2.1

end PeopleApi
